import Mathlib

/-!
# Stock screener: shallow embedding and verification

Embedding of src/stockscreener.py, an S&P 500 stock screener.
Numeric metric values are modelled as `Option ℚ` (`none` embeds a
missing value, i.e. pandas NaN); the pandas comparisons of a column
with a bound evaluate to False on NaN, which the helpers `nnGe` and
`nnLe` embed.  The filtering pipeline of `main` (source lines 82 to 99)
is `screen`, the display-time formatting (lines 100 to 107) is
`display`, and the metrics fetch loop `fetch_stock_data` (lines 14 to
49) is `fetch_stock_data`, parametrised by the per-symbol fetch
outcome.
-/

namespace StockScreener

/-- A calendar date value for the Next Earnings field (earningsDate). -/
inductive Earnings where
  /-- the info lookup of earningsDate returned None. -/
  | missing : Earnings
  /-- a datetime or Timestamp value (year, month, day). -/
  | date : ℕ → ℕ → ℕ → Earnings
  /-- any other raw value, kept verbatim by the formatter. -/
  | raw : String → Earnings
  deriving DecidableEq, Repr

/-- One row of the metrics table built by `fetch_stock_data`
(source lines 20 to 46).  Numeric columns are nullable; string columns
default to the empty string at construction. -/
structure Row where
  /-- column Symbol -/
  symbol : String
  /-- column Name (from shortName) -/
  name : String
  /-- column Sector (from sector) -/
  sector : String
  /-- column Industry (from industry) -/
  industry : String
  /-- column Price (from regularMarketPrice) -/
  price : Option ℚ
  /-- column Volume (from volume) -/
  volume : Option ℚ
  /-- column Market Cap (from marketCap) -/
  marketCap : Option ℚ
  /-- column P/E Ratio (from trailingPE) -/
  pe : Option ℚ
  /-- column Forward P/E (from forwardPE) -/
  fpe : Option ℚ
  /-- column EPS (from trailingEps) -/
  eps : Option ℚ
  /-- column Dividend Yield (from dividendYield), stored in
  fractional (0 to 1) form -/
  divYield : Option ℚ
  /-- column 52W High (from fiftyTwoWeekHigh) -/
  high52 : Option ℚ
  /-- column 52W Low (from fiftyTwoWeekLow) -/
  low52 : Option ℚ
  /-- column Beta (from beta) -/
  beta : Option ℚ
  /-- column Price/Book (from priceToBook) -/
  pb : Option ℚ
  /-- column ROE (from returnOnEquity) -/
  roe : Option ℚ
  /-- column Debt/Equity (from debtToEquity) -/
  de : Option ℚ
  /-- column Revenue (from totalRevenue) -/
  revenue : Option ℚ
  /-- column Gross Margin (from grossMargins), fractional form -/
  gm : Option ℚ
  /-- column Operating Margin (from operatingMargins), fractional form -/
  om : Option ℚ
  /-- column Free Cash Flow (from freeCashflow) -/
  fcf : Option ℚ
  /-- column Next Earnings (from earningsDate) -/
  nextEarnings : Earnings
  /-- column Exchange (from exchange) -/
  exchange : String
  /-- column Country (from country) -/
  country : String
  /-- column Website (from website) -/
  website : String
  deriving DecidableEq, Repr

/-- The key-value snapshot stock.info returned by the data provider
for one symbol; every key may be absent. -/
structure Info where
  shortName : Option String
  sector : Option String
  industry : Option String
  regularMarketPrice : Option ℚ
  volume : Option ℚ
  marketCap : Option ℚ
  trailingPE : Option ℚ
  forwardPE : Option ℚ
  trailingEps : Option ℚ
  dividendYield : Option ℚ
  fiftyTwoWeekHigh : Option ℚ
  fiftyTwoWeekLow : Option ℚ
  beta : Option ℚ
  priceToBook : Option ℚ
  returnOnEquity : Option ℚ
  debtToEquity : Option ℚ
  totalRevenue : Option ℚ
  grossMargins : Option ℚ
  operatingMargins : Option ℚ
  freeCashflow : Option ℚ
  earningsDate : Option Earnings
  exchange : Option String
  country : Option String
  website : Option String
  deriving DecidableEq, Repr

/-- The row dictionary appended for one symbol (source lines 20 to 46):
string keys are looked up with the empty string as default, all other
keys with None as default. -/
def mkRow (symbol : String) (i : Info) : Row where
  symbol := symbol
  name := i.shortName.getD ""
  sector := i.sector.getD ""
  industry := i.industry.getD ""
  price := i.regularMarketPrice
  volume := i.volume
  marketCap := i.marketCap
  pe := i.trailingPE
  fpe := i.forwardPE
  eps := i.trailingEps
  divYield := i.dividendYield
  high52 := i.fiftyTwoWeekHigh
  low52 := i.fiftyTwoWeekLow
  beta := i.beta
  pb := i.priceToBook
  roe := i.returnOnEquity
  de := i.debtToEquity
  revenue := i.totalRevenue
  gm := i.grossMargins
  om := i.operatingMargins
  fcf := i.freeCashflow
  nextEarnings := (i.earningsDate).getD Earnings.missing
  exchange := i.exchange.getD ""
  country := i.country.getD ""
  website := i.website.getD ""

/-- fetch_stock_data (source lines 14 to 49).  The effectful part,
contacting the provider for one symbol where any exception is caught
by the try/except-continue, is abstracted as a map
`fetch : String → Option Info`, with `none` embedding a raised
exception.  The loop appends one row per successful symbol, in loop
order. -/
def fetch_stock_data (fetch : String → Option Info) :
    List String → List Row
  | [] => []
  | symbol :: rest =>
    match fetch symbol with
    | some i => mkRow symbol i :: fetch_stock_data fetch rest
    | none => fetch_stock_data fetch rest

/-- The filter settings collected from the sidebar (source lines 63 to
80).  `sector` and `industry` are the multiselect selections; each
numeric pair is the (min, max) value of one slider.  Dividend-yield
bounds are entered in percentage units (the slider is labelled
Dividend Yield (%)). -/
structure Criteria where
  sector : List String
  industry : List String
  min_price : ℚ
  max_price : ℚ
  min_pe : ℚ
  max_pe : ℚ
  min_fpe : ℚ
  max_fpe : ℚ
  min_pb : ℚ
  max_pb : ℚ
  min_eps : ℚ
  max_eps : ℚ
  min_roe : ℚ
  max_roe : ℚ
  min_beta : ℚ
  max_beta : ℚ
  min_div : ℚ
  max_div : ℚ
  min_gm : ℚ
  max_gm : ℚ
  min_om : ℚ
  max_om : ℚ
  min52wlow : ℚ
  max52whigh : ℚ
  min_de : ℚ
  max_de : ℚ

/-- The default (unrestricted) slider positions of source lines 66 to
80; the category selections default to empty. -/
def defaultCriteria : Criteria where
  sector := []
  industry := []
  min_price := 0
  max_price := 2000
  min_pe := 0
  max_pe := 100
  min_fpe := 0
  max_fpe := 100
  min_pb := 0
  max_pb := 50
  min_eps := -50
  max_eps := 50
  min_roe := -1
  max_roe := 2
  min_beta := -2
  max_beta := 4
  min_div := 0
  max_div := 10
  min_gm := 0
  max_gm := 1
  min_om := 0
  max_om := 1
  min52wlow := 0
  max52whigh := 2000
  min_de := 0
  max_de := 10

/-- pandas comparison of one cell with a lower bound: NaN >= b is
False. -/
def nnGe (v : Option ℚ) (b : ℚ) : Bool :=
  match v with
  | none => false
  | some x => b ≤ x

/-- pandas comparison of one cell with an upper bound: NaN <= b is
False. -/
def nnLe (v : Option ℚ) (b : ℚ) : Bool :=
  match v with
  | none => false
  | some x => x ≤ b

/-- One numeric criterion, the conjunction (col >= lo) & (col <= hi)
applied on every filter line 88 to 97 and 99. -/
def inRange (v : Option ℚ) (lo hi : ℚ) : Bool :=
  nnGe v lo && nnLe v hi

/-- The 52W Price Range predicate of source line 98: the 52W Low
column is compared against the lower slider bound and the 52W High
column against the upper slider bound, in one mask. -/
def pass52 (c : Criteria) (r : Row) : Bool :=
  nnGe r.low52 c.min52wlow && nnLe r.high52 c.max52whigh

/-- The filtering pipeline of `main` (source lines 84 to 99), applied
in source order: two conditional categorical filters, then twelve
numeric boolean-mask filters.  The guard on each category filter is
Python truthiness, i.e. the filter is skipped when the selection list
is empty.  Line 95 divides the dividend-yield slider bounds by 100
before comparing with the stored fractional values. -/
def screen (c : Criteria) (data : List Row) : List Row :=
  let d1 := if c.sector.isEmpty then data else
    data.filter (fun r => c.sector.contains r.sector)
  let d2 := if c.industry.isEmpty then d1 else
    d1.filter (fun r => c.industry.contains r.industry)
  let d3 := d2.filter (fun r => inRange r.price c.min_price c.max_price)
  let d4 := d3.filter (fun r => inRange r.pe c.min_pe c.max_pe)
  let d5 := d4.filter (fun r => inRange r.fpe c.min_fpe c.max_fpe)
  let d6 := d5.filter (fun r => inRange r.pb c.min_pb c.max_pb)
  let d7 := d6.filter (fun r => inRange r.eps c.min_eps c.max_eps)
  let d8 := d7.filter (fun r => inRange r.roe c.min_roe c.max_roe)
  let d9 := d8.filter (fun r => inRange r.beta c.min_beta c.max_beta)
  let d10 := d9.filter (fun r =>
    inRange r.divYield (c.min_div / 100) (c.max_div / 100))
  let d11 := d10.filter (fun r => inRange r.gm c.min_gm c.max_gm)
  let d12 := d11.filter (fun r => inRange r.om c.min_om c.max_om)
  let d13 := d12.filter (fun r => pass52 c r)
  let d14 := d13.filter (fun r => inRange r.de c.min_de c.max_de)
  d14

/-- The conjunction of both categorical criteria (source lines 84 to
87), as a single predicate. -/
def catPass (c : Criteria) (r : Row) : Bool :=
  (c.sector.isEmpty || c.sector.contains r.sector) &&
  (c.industry.isEmpty || c.industry.contains r.industry)

/-- The conjunction of the twelve numeric criteria (source lines 88 to
99), as a single predicate. -/
def numPass (c : Criteria) (r : Row) : Bool :=
  inRange r.price c.min_price c.max_price &&
  inRange r.pe c.min_pe c.max_pe &&
  inRange r.fpe c.min_fpe c.max_fpe &&
  inRange r.pb c.min_pb c.max_pb &&
  inRange r.eps c.min_eps c.max_eps &&
  inRange r.roe c.min_roe c.max_roe &&
  inRange r.beta c.min_beta c.max_beta &&
  inRange r.divYield (c.min_div / 100) (c.max_div / 100) &&
  inRange r.gm c.min_gm c.max_gm &&
  inRange r.om c.min_om c.max_om &&
  pass52 c r &&
  inRange r.de c.min_de c.max_de

/-- Pad a numeral to two digits, as the month and day directives of
strftime do. -/
def pad2 (n : ℕ) : String :=
  if n < 10 then "0" ++ toString n else toString n

/-- strftime with the ISO year-month-day format on a date value;
non-date values pass through unchanged (source line 105). -/
def fmtEarnings : Earnings → Earnings
  | Earnings.date y m d =>
      Earnings.raw (toString y ++ "-" ++ pad2 m ++ "-" ++ pad2 d)
  | e => e

/-- The display-time formatting of source lines 100 to 107, applied to
each retained row: the three percentage-scaled columns are multiplied
by 100, the earnings date is ISO-formatted, the website becomes a
markdown link (the empty string stays empty, by Python falsiness). -/
def display (r : Row) : Row :=
  { r with
    divYield := r.divYield.map (fun x => x * 100)
    gm := r.gm.map (fun x => x * 100)
    om := r.om.map (fun x => x * 100)
    nextEarnings := fmtEarnings r.nextEarnings
    website := if r.website = "" then "" else
      "[Link](" ++ r.website ++ ")" }

/-- The whole Run Screener transform (source lines 82 to 108): filter,
then format for display. -/
def runScreener (c : Criteria) (data : List Row) : List Row :=
  (screen c data).map display

/-- Whether every numeric metric of a row is present (non-null). -/
def complete (r : Row) : Bool :=
  r.price.isSome && r.volume.isSome && r.marketCap.isSome &&
  r.pe.isSome && r.fpe.isSome && r.eps.isSome && r.divYield.isSome &&
  r.high52.isSome && r.low52.isSome && r.beta.isSome && r.pb.isSome &&
  r.roe.isSome && r.de.isSome && r.revenue.isSome && r.gm.isSome &&
  r.om.isSome && r.fcf.isSome

/-- Modelled from the spec: each criterion range is set to the full
domain of its field, rendered as the ranges containing every value the
row actually takes (the dividend-yield range after the division by
100, and the 52W range containing the whole 52-week band). -/
def covers (c : Criteria) (r : Row) : Bool :=
  (r.price.all fun x => decide (c.min_price ≤ x) && decide (x ≤ c.max_price)) &&
  (r.pe.all fun x => decide (c.min_pe ≤ x) && decide (x ≤ c.max_pe)) &&
  (r.fpe.all fun x => decide (c.min_fpe ≤ x) && decide (x ≤ c.max_fpe)) &&
  (r.pb.all fun x => decide (c.min_pb ≤ x) && decide (x ≤ c.max_pb)) &&
  (r.eps.all fun x => decide (c.min_eps ≤ x) && decide (x ≤ c.max_eps)) &&
  (r.roe.all fun x => decide (c.min_roe ≤ x) && decide (x ≤ c.max_roe)) &&
  (r.beta.all fun x => decide (c.min_beta ≤ x) && decide (x ≤ c.max_beta)) &&
  (r.divYield.all fun x =>
    decide (c.min_div / 100 ≤ x) && decide (x ≤ c.max_div / 100)) &&
  (r.gm.all fun x => decide (c.min_gm ≤ x) && decide (x ≤ c.max_gm)) &&
  (r.om.all fun x => decide (c.min_om ≤ x) && decide (x ≤ c.max_om)) &&
  (r.low52.all fun x => decide (c.min52wlow ≤ x)) &&
  (r.high52.all fun x => decide (x ≤ c.max52whigh)) &&
  (r.de.all fun x => decide (c.min_de ≤ x) && decide (x ≤ c.max_de))

/-! ## Basic lemmas about the cell comparisons -/

@[simp]
lemma nnGe_none (b : ℚ) : nnGe none b = false := rfl

@[simp]
lemma nnLe_none (b : ℚ) : nnLe none b = false := rfl

@[simp]
lemma nnGe_some (x b : ℚ) : nnGe (some x) b = decide (b ≤ x) := rfl

@[simp]
lemma nnLe_some (x b : ℚ) : nnLe (some x) b = decide (x ≤ b) := rfl

lemma nnGe_eq_true_iff (v : Option ℚ) (b : ℚ) :
    nnGe v b = true ↔ ∃ x, v = some x ∧ b ≤ x := by
  cases v <;> simp

lemma nnLe_eq_true_iff (v : Option ℚ) (b : ℚ) :
    nnLe v b = true ↔ ∃ x, v = some x ∧ x ≤ b := by
  cases v <;> simp

/-! ## The pipeline as a single filter -/

/-- The fourteen sequential masking steps of `screen` fuse into one
filter by the conjunction of all criteria. -/
lemma screen_eq_filter (c : Criteria) (data : List Row) :
    screen c data = data.filter (fun r => catPass c r && numPass c r) := by
  unfold screen
  by_cases hs : c.sector.isEmpty <;> by_cases hi : c.industry.isEmpty <;>
    simp [hs, hi, List.filter_filter] <;>
    refine List.filter_congr ?_ <;> intro r hr <;>
    simp [catPass, numPass, hs, hi, Bool.and_comm, Bool.and_left_comm,
      Bool.and_assoc]

/-- Membership in the filtered output, characterised. -/
lemma mem_screen (c : Criteria) (data : List Row) (r : Row) :
    r ∈ screen c data ↔ r ∈ data ∧ catPass c r = true ∧ numPass c r = true := by
  rw [screen_eq_filter]
  simp [List.mem_filter]

/-- A row that is null in any filtered field fails the conjunction of
the numeric masks. -/
lemma not_mem_screen_of_null (c : Criteria) (data : List Row) (r : Row)
    (h : r.price = none ∨ r.pe = none ∨ r.fpe = none ∨ r.pb = none ∨
      r.eps = none ∨ r.roe = none ∨ r.beta = none ∨ r.divYield = none ∨
      r.gm = none ∨ r.om = none ∨ r.low52 = none ∨ r.high52 = none ∨
      r.de = none) :
    r ∉ screen c data := by
  intro hm
  rw [mem_screen] at hm
  obtain ⟨-, -, hnum⟩ := hm
  simp only [numPass, inRange, pass52, Bool.and_eq_true] at hnum
  rcases h with h|h|h|h|h|h|h|h|h|h|h|h|h <;> simp [h] at hnum

end StockScreener

namespace StockScreener

/-- A sample row with complete metrics that satisfies every default
criterion. -/
def rowA : Row where
  symbol := "AAA"
  name := "Alpha"
  sector := "Tech"
  industry := "Software"
  price := some 50
  volume := some 1000
  marketCap := some 1000000000
  pe := some 20
  fpe := some 18
  eps := some 5
  divYield := some (1/100)
  high52 := some 60
  low52 := some 40
  beta := some 1
  pb := some 3
  roe := some (1/5)
  de := some 1
  revenue := some 100000000
  gm := some (1/2)
  om := some (1/4)
  fcf := some 10000000
  nextEarnings := Earnings.date 2026 11 5
  exchange := "NYSE"
  country := "United States"
  website := "https://alpha.example"

/-- The sample row with its price missing. -/
def rowNoPrice : Row := { rowA with price := none }

/-- Default criteria with the price range narrowed from above. -/
def cMax40 : Criteria := { defaultCriteria with max_price := 40 }

/-- Default criteria with the price range narrowed from below. -/
def cMin1 : Criteria := { defaultCriteria with min_price := 1 }

/-- C1: the filter is a strict conjunction — a row whose value is
excluded by any single active numeric criterion is absent from the
output, whatever the other criteria say. -/
theorem screen_strict_conjunction (c : Criteria) (data : List Row) (r : Row)
    (h : inRange r.price c.min_price c.max_price = false ∨
      inRange r.pe c.min_pe c.max_pe = false ∨
      inRange r.fpe c.min_fpe c.max_fpe = false ∨
      inRange r.pb c.min_pb c.max_pb = false ∨
      inRange r.eps c.min_eps c.max_eps = false ∨
      inRange r.roe c.min_roe c.max_roe = false ∨
      inRange r.beta c.min_beta c.max_beta = false ∨
      inRange r.divYield (c.min_div / 100) (c.max_div / 100) = false ∨
      inRange r.gm c.min_gm c.max_gm = false ∨
      inRange r.om c.min_om c.max_om = false ∨
      pass52 c r = false ∨
      inRange r.de c.min_de c.max_de = false) :
    r ∉ screen c data := by
  intro hm
  rw [mem_screen] at hm
  obtain ⟨-, -, hnum⟩ := hm
  simp only [numPass, Bool.and_eq_true] at hnum
  rcases h with h|h|h|h|h|h|h|h|h|h|h|h <;> simp [h] at hnum

theorem screen_strict_conjunction_witness : rowA ∉ screen cMax40 [rowA] :=
  screen_strict_conjunction cMax40 [rowA] rowA (Or.inl (by decide))

/-- C8: the filter is a pure transform of its two inputs and is
idempotent — re-filtering its own output with the same criteria
returns that output unchanged. -/
theorem screen_idempotent (c : Criteria) (data : List Row) :
    screen c (screen c data) = screen c data := by
  simp [screen_eq_filter, List.filter_filter, Bool.and_self,
    Bool.and_comm, Bool.and_left_comm, Bool.and_assoc]

/-- C9: a row that is null in any one of the numerically filtered
fields is excluded under every slider setting, including the
unrestricted default — a null fails both bound comparisons
unconditionally. -/
theorem null_always_excluded (c : Criteria) (data : List Row) (r : Row)
    (h : r.price = none ∨ r.pe = none ∨ r.fpe = none ∨ r.pb = none ∨
      r.eps = none ∨ r.roe = none ∨ r.beta = none ∨ r.divYield = none ∨
      r.gm = none ∨ r.om = none ∨ r.low52 = none ∨ r.high52 = none ∨
      r.de = none) :
    r ∉ screen c data :=
  not_mem_screen_of_null c data r h

theorem null_always_excluded_witness :
    rowNoPrice ∉ screen defaultCriteria [rowNoPrice] :=
  null_always_excluded defaultCriteria [rowNoPrice] rowNoPrice (Or.inl rfl)

/-- C5: every numeric range criterion is inclusive on both bounds — a
cell equal to the lower or to the upper bound passes the criterion. -/
theorem range_bounds_inclusive (lo hi : ℚ) (v : Option ℚ)
    (hlh : lo ≤ hi) (h : v = some lo ∨ v = some hi) :
    inRange v lo hi = true := by
  rcases h with h|h <;> simp [h, inRange, hlh]

theorem range_bounds_inclusive_witness :
    inRange (some 0) 0 2000 = true :=
  range_bounds_inclusive 0 2000 (some 0) (by norm_num) (Or.inl rfl)

end StockScreener

namespace StockScreener

/-- C4: a row with a null value in a numerically filtered field is
excluded once the range of that field is set narrower than its
unrestricted default (the defaults being the slider extents of source
lines 66 to 80); the missing datum fails the range test instead of
raising. -/
theorem null_excluded_when_narrowed (c : Criteria) (data : List Row) (r : Row) :
    (r.price = none → 0 < c.min_price ∨ c.max_price < 2000 →
      r ∉ screen c data) ∧
    (r.pe = none → 0 < c.min_pe ∨ c.max_pe < 100 → r ∉ screen c data) ∧
    (r.fpe = none → 0 < c.min_fpe ∨ c.max_fpe < 100 → r ∉ screen c data) ∧
    (r.pb = none → 0 < c.min_pb ∨ c.max_pb < 50 → r ∉ screen c data) ∧
    (r.eps = none → -50 < c.min_eps ∨ c.max_eps < 50 → r ∉ screen c data) ∧
    (r.roe = none → -1 < c.min_roe ∨ c.max_roe < 2 → r ∉ screen c data) ∧
    (r.beta = none → -2 < c.min_beta ∨ c.max_beta < 4 → r ∉ screen c data) ∧
    (r.divYield = none → 0 < c.min_div ∨ c.max_div < 10 →
      r ∉ screen c data) ∧
    (r.gm = none → 0 < c.min_gm ∨ c.max_gm < 1 → r ∉ screen c data) ∧
    (r.om = none → 0 < c.min_om ∨ c.max_om < 1 → r ∉ screen c data) ∧
    (r.low52 = none → 0 < c.min52wlow ∨ c.max52whigh < 2000 →
      r ∉ screen c data) ∧
    (r.high52 = none → 0 < c.min52wlow ∨ c.max52whigh < 2000 →
      r ∉ screen c data) ∧
    (r.de = none → 0 < c.min_de ∨ c.max_de < 10 → r ∉ screen c data) :=
  ⟨fun h _ => not_mem_screen_of_null c data r (by simp [h]),
   fun h _ => not_mem_screen_of_null c data r (by simp [h]),
   fun h _ => not_mem_screen_of_null c data r (by simp [h]),
   fun h _ => not_mem_screen_of_null c data r (by simp [h]),
   fun h _ => not_mem_screen_of_null c data r (by simp [h]),
   fun h _ => not_mem_screen_of_null c data r (by simp [h]),
   fun h _ => not_mem_screen_of_null c data r (by simp [h]),
   fun h _ => not_mem_screen_of_null c data r (by simp [h]),
   fun h _ => not_mem_screen_of_null c data r (by simp [h]),
   fun h _ => not_mem_screen_of_null c data r (by simp [h]),
   fun h _ => not_mem_screen_of_null c data r (by simp [h]),
   fun h _ => not_mem_screen_of_null c data r (by simp [h]),
   fun h _ => not_mem_screen_of_null c data r (by simp [h])⟩

theorem null_excluded_when_narrowed_witness :
    rowNoPrice ∉ screen cMin1 [rowNoPrice] :=
  (null_excluded_when_narrowed cMin1 [rowNoPrice] rowNoPrice).1 rfl
    (Or.inl (by norm_num [cMin1, defaultCriteria]))

/-- C3: an empty selection for a categorical criterion applies no
restriction on that field, and a non-empty selection retains exactly
the rows whose field value is a member of the selection — membership
in the output is characterised criterion by criterion. -/
theorem screen_category_semantics (c : Criteria) (data : List Row) (r : Row) :
    r ∈ screen c data ↔
      r ∈ data ∧
      (c.sector = [] ∨ r.sector ∈ c.sector) ∧
      (c.industry = [] ∨ r.industry ∈ c.industry) ∧
      numPass c r = true := by
  rw [mem_screen]
  simp [catPass, Bool.and_eq_true, Bool.or_eq_true, and_assoc,
    List.isEmpty_iff]

/-- C10: the single 52W Price Range criterion couples two fields — it
passes a row exactly when the 52W Low is at least the lower bound and
the 52W High is at most the upper bound, so the whole 52-week band
must lie inside the selected range; every retained row satisfies it. -/
theorem fiftyTwoWeek_coupled (c : Criteria) (data : List Row) (r : Row) :
    (pass52 c r = true ↔
      ∃ lo hi, r.low52 = some lo ∧ r.high52 = some hi ∧
        c.min52wlow ≤ lo ∧ hi ≤ c.max52whigh) ∧
    (r ∈ screen c data → pass52 c r = true) := by
  constructor
  · simp only [pass52, Bool.and_eq_true, nnGe_eq_true_iff, nnLe_eq_true_iff]
    constructor
    · rintro ⟨⟨lo, hlo, h1⟩, ⟨hi, hhi, h2⟩⟩
      exact ⟨lo, hi, hlo, hhi, h1, h2⟩
    · rintro ⟨lo, hi, hlo, hhi, h1, h2⟩
      exact ⟨⟨lo, hlo, h1⟩, ⟨hi, hhi, h2⟩⟩
  · intro hm
    rw [mem_screen] at hm
    obtain ⟨-, -, hnum⟩ := hm
    simp only [numPass, Bool.and_eq_true] at hnum
    tauto

theorem fiftyTwoWeek_coupled_witness : pass52 defaultCriteria rowA = true :=
  (fiftyTwoWeek_coupled defaultCriteria [rowA] rowA).1.mpr
    ⟨40, 60, rfl, rfl, by norm_num [defaultCriteria], by norm_num [defaultCriteria]⟩

end StockScreener

namespace StockScreener

/-- C2: on a table whose rows all have complete metrics, filtering
with empty category selections and every range covering the full
domain of its field returns the table unchanged — the identity
filter. -/
theorem screen_identity_on_complete (c : Criteria) (data : List Row)
    (hs : c.sector = []) (hi : c.industry = [])
    (h : ∀ r ∈ data, complete r = true ∧ covers c r = true) :
    screen c data = data := by
  rw [screen_eq_filter]
  refine List.filter_eq_self.mpr ?_
  intro r hr
  obtain ⟨hcmp, hcov⟩ := h r hr
  simp only [complete, Bool.and_eq_true, and_assoc,
    Option.isSome_iff_exists] at hcmp
  obtain ⟨⟨vp, hvp⟩, -, -, ⟨vpe, hvpe⟩, ⟨vfpe, hvfpe⟩, ⟨veps, hveps⟩,
    ⟨vdy, hvdy⟩, ⟨vh, hvh⟩, ⟨vl, hvl⟩, ⟨vb, hvb⟩, ⟨vpb, hvpb⟩,
    ⟨vroe, hvroe⟩, ⟨vde, hvde⟩, -, ⟨vgm, hvgm⟩, ⟨vom, hvom⟩, -⟩ := hcmp
  simp only [covers, Bool.and_eq_true, and_assoc, hvp, hvpe, hvfpe, hveps,
    hvdy, hvh, hvl, hvb, hvpb, hvroe, hvde, hvgm, hvom, Option.all_some,
    decide_eq_true_eq] at hcov
  simp [catPass, numPass, inRange, pass52, hs, hi, hvp, hvpe, hvfpe,
    hveps, hvdy, hvh, hvl, hvb, hvpb, hvroe, hvde, hvgm, hvom]
  tauto

theorem screen_identity_on_complete_witness :
    screen defaultCriteria [rowA] = [rowA] :=
  screen_identity_on_complete defaultCriteria [rowA] rfl rfl (by
    intro r hr
    rw [List.mem_singleton] at hr
    subst hr
    refine ⟨by decide, ?_⟩
    norm_num [covers, rowA, defaultCriteria, Option.all_some])

end StockScreener

namespace StockScreener

/-- C6: the percentage-scaled columns are filtered in fractional form
— the dividend-yield slider bounds are divided by 100 before the
comparison — and only the retained rows are rescaled by 100 for
display; the displayed value of each such column is 100 times the
stored fraction, and the rescaling happens after filtering, so the
output rows are exactly the screened rows (same symbols, same order). -/
theorem percent_scaling_display_only (c : Criteria) (data : List Row) :
    (∀ r ∈ screen c data,
      inRange r.divYield (c.min_div / 100) (c.max_div / 100) = true) ∧
    (runScreener c data).map Row.symbol = (screen c data).map Row.symbol ∧
    ∀ r : Row,
      (display r).divYield = r.divYield.map (fun x => x * 100) ∧
      (display r).gm = r.gm.map (fun x => x * 100) ∧
      (display r).om = r.om.map (fun x => x * 100) := by
  refine ⟨?_, ?_, ?_⟩
  · intro r hr
    rw [mem_screen] at hr
    obtain ⟨-, -, hnum⟩ := hr
    simp only [numPass, Bool.and_eq_true] at hnum
    tauto
  · simp [runScreener, List.map_map, Function.comp, display]
  · intro r
    exact ⟨rfl, rfl, rfl⟩

theorem percent_scaling_display_only_witness :
    inRange rowA.divYield (defaultCriteria.min_div / 100)
      (defaultCriteria.max_div / 100) = true :=
  (percent_scaling_display_only defaultCriteria [rowA]).1 rowA (by
    rw [mem_screen]
    refine ⟨List.mem_singleton.mpr rfl, by decide, ?_⟩
    norm_num [numPass, inRange, pass52, rowA, defaultCriteria])

/-- C7: the metrics fetcher returns exactly one row per symbol whose
per-symbol fetch succeeded — a failing symbol contributes no row and
surfaces no error — and the returned rows keep the relative order of
the requested symbols, with gaps where a symbol failed. -/
theorem fetch_one_row_per_success (fetch : String → Option Info)
    (tickers : List String) :
    fetch_stock_data fetch tickers
      = tickers.filterMap (fun s => (fetch s).map (mkRow s)) ∧
    (fetch_stock_data fetch tickers).map Row.symbol
      = tickers.filter (fun s => (fetch s).isSome) := by
  constructor
  · induction tickers with
    | nil => rfl
    | cons s rest ih =>
      cases hf : fetch s <;> simp [fetch_stock_data, hf, ih]
  · induction tickers with
    | nil => rfl
    | cons s rest ih =>
      cases hf : fetch s <;> simp [fetch_stock_data, hf, ih, mkRow]

end StockScreener
